import Mathlib

/-!
# Verification of `python-whois-recurse`

A shallow embedding of the `whois_recurse` package (files
`parser.py`, `client.py`, `servers.py`) into Lean 4, together with
theorems settling the specification claims.

Modelling conventions:
* Python `str` values are `List Char` (a Python string is a sequence of
  unicode code points).  `s2l` converts a Lean string literal.
* Python `bytes` values are `List Nat` (each element < 256).
* The network is an explicit oracle `Network` mapping
  (server, query string) to the observable behaviour of one socket
  session (`NetResult`).  One constructor corresponds to one class of
  peer/OS behaviour: a successful read-to-EOF delivering a list of
  `recv` chunks, a timeout, a name-resolution failure (`socket.gaierror`),
  a refused connection, or any other I/O fault.
* `re.search` of the label patterns used by the parser (all of the shape
  `literal-label (.+)` with `re.IGNORECASE`) is embedded directly:
  earliest position where the label matches case-insensitively and is
  followed by at least one non-newline character wins, and `(.+)`
  greedily captures to the end of the line.  `re.IGNORECASE` is modelled
  as ASCII case-insensitivity (all patterns are ASCII), and
  `str.lower`/`str.strip` are modelled on the ASCII range, which is the
  range Python and this model agree on for the protocol text involved.
-/

/-- Convert a string literal to the `List Char` representation. -/
def s2l (s : String) : List Char := s.data

/-- ASCII bytes of a string literal (used for byte-level protocol data). -/
def s2b (s : String) : List Nat := s.data.map Char.toNat

/-- `str.lower` on one character (ASCII range, see module docstring). -/
def lowerChar (c : Char) : Char :=
  if 'A' ≤ c ∧ c ≤ 'Z' then Char.ofNat (c.toNat + 32) else c

/-- `str.lower` on a whole string. -/
def lowerStr (l : List Char) : List Char := l.map lowerChar

/-- The whitespace characters removed by Python `str.strip()` (ASCII range). -/
def isPySpace (c : Char) : Bool :=
  c = ' ' || c = '\t' || c = '\n' || c = '\r' || c = '\x0b' || c = '\x0c'

/-- Remove trailing `str.strip()` whitespace. -/
def rstripWs (l : List Char) : List Char :=
  (l.reverse.dropWhile isPySpace).reverse

/-- Python `str.strip()` (no argument): drop whitespace from both ends. -/
def pyStrip (l : List Char) : List Char :=
  rstripWs (l.dropWhile isPySpace)

/-- Case-insensitive prefix test: does `label` occur at the head of `text`
(after lowering both, cf. `re.IGNORECASE`)? -/
def isPrefixCI (label text : List Char) : Bool :=
  (lowerStr label).isPrefixOf (lowerStr text)

/-- The greedy capture of `(.+)`: everything up to (excluding) the next
newline.  Python's `.` matches every character except `'\n'`. -/
def takeLine (l : List Char) : List Char := l.takeWhile (fun c => !(c == '\n'))

/-- Embedding of `re.search(label + "(.+)", text, re.IGNORECASE)`, returning
the capture group: the earliest position where `label` matches
case-insensitively and is followed by at least one non-newline character;
the capture is the remainder of that line. -/
def searchCapture (label : List Char) : List Char → Option (List Char)
  | [] => none
  | c :: rest =>
    if isPrefixCI label (c :: rest) then
      let cap := takeLine ((c :: rest).drop label.length)
      if cap.isEmpty then searchCapture label rest else some cap
    else searchCapture label rest

/-- `WHOISParser._extract_field`: try each pattern in order, return the
stripped capture of the first one that matches anywhere in the text. -/
def extract_field (text : List Char) : List (List Char) → Option (List Char)
  | [] => none
  | p :: ps =>
    match searchCapture p text with
    | some v => some (pyStrip v)
    | none => extract_field text ps

/-- `WHOISParser.FIELD_PATTERNS` (labels of the `label (.+)` patterns),
in source order. -/
def FIELD_PATTERNS : List (List Char × List (List Char)) :=
  [ (s2l "registrar",
      [s2l "Registrar: ", s2l "Registrar Name: ", s2l "Sponsoring Registrar: "]),
    (s2l "creation_date",
      [s2l "Creation Date: ", s2l "Created Date: ", s2l "Created on: ",
       s2l "Domain Created: "]),
    (s2l "expiry_date",
      [s2l "Registry Expiry Date: ", s2l "Expiry Date: ", s2l "Expires: ",
       s2l "Expiration Date: "]),
    (s2l "updated_date",
      [s2l "Updated Date: ", s2l "Last Updated: ", s2l "Last Update: "]),
    (s2l "nameservers",
      [s2l "Name Server: ", s2l "Nameserver: ", s2l "nserver: "]),
    (s2l "status",
      [s2l "Domain Status: ", s2l "Status: "]) ]

/-- `WHOISParser.extract_registrar_whois`. -/
def extract_registrar_whois (text : List Char) : Option (List Char) :=
  extract_field text
    [s2l "Registrar WHOIS Server: ", s2l "Registrar Whois: ", s2l "WHOIS Server: "]

/-- Python `email.split('@')[1]`: the segment strictly between the first
`'@'` and the following `'@'` (or the end). -/
def afterFirstAt (e : List Char) : List Char :=
  ((e.dropWhile (fun c => !(c == '@'))).drop 1).takeWhile (fun c => !(c == '@'))

/-- `WHOISParser._is_valid_email`. -/
def is_valid_email (e : List Char) : Bool :=
  if e.isEmpty then false
  else if 254 < e.length then false
  else if !(e.contains '@') then false
  else (afterFirstAt e).contains '.'

/-- `WHOISParser.extract_contact_email`: build the three role patterns,
take the first match, keep it only when truthy and valid. -/
def extract_contact_email (text name : List Char) : Option (List Char) :=
  match extract_field text
      [name ++ s2l " Email: ", name ++ s2l " E-mail: ", name ++ s2l " EMAIL: "] with
  | some email =>
    if !email.isEmpty && is_valid_email email then some (pyStrip email) else none
  | none => none

/-- `WHOISParser.CONTACT_PATTERNS`, in source order. -/
def CONTACT_PATTERNS : List (List Char × List (List Char)) :=
  [ (s2l "registrant", [s2l "Registrant", s2l "Owner"]),
    (s2l "admin", [s2l "Admin", s2l "Administrative"]),
    (s2l "tech", [s2l "Tech", s2l "Technical"]),
    (s2l "billing", [s2l "Billing"]) ]

/-- The per-role loop of `parse_full`: first synonym whose
`extract_contact_email` is truthy wins. -/
def roleEmail (text : List Char) : List (List Char) → Option (List Char)
  | [] => none
  | n :: ns =>
    match extract_contact_email text n with
    | some e => some e
    | none => roleEmail text ns

/-! ## The generic email pattern

`extract_all_emails` scans the text with
`r'[a-zA-Z0-9._%+-]+@[a-zA-Z0-9.-]+\.[a-zA-Z]{2,}'` via `re.findall`.
The backtracking behaviour of this particular pattern is embedded
directly: the local part is a maximal run of local characters (it can
never backtrack usefully because `'@'` is not a local character), the
part after `'@'` is a maximal run of domain characters split at the
rightmost `'.'` that is followed by at least two letters, and `findall`
scans left to right, resuming after each non-overlapping match. -/

/-- Characters of the local-part class `[a-zA-Z0-9._%+-]`. -/
def isLocalChar (c : Char) : Bool :=
  ('a' ≤ c && c ≤ 'z') || ('A' ≤ c && c ≤ 'Z') || ('0' ≤ c && c ≤ '9') ||
  c = '.' || c = '_' || c = '%' || c = '+' || c = '-'

/-- Characters of the domain class `[a-zA-Z0-9.-]`. -/
def isDomChar (c : Char) : Bool :=
  ('a' ≤ c && c ≤ 'z') || ('A' ≤ c && c ≤ 'Z') || ('0' ≤ c && c ≤ '9') ||
  c = '.' || c = '-'

/-- Letters `[a-zA-Z]`. -/
def isAlphaChar (c : Char) : Bool :=
  ('a' ≤ c && c ≤ 'z') || ('A' ≤ c && c ≤ 'Z')

/-- Split the maximal domain-character run `dom` as
`A ++ '.' ++ (letter run of length ≥ 2)`, trying split points from the
right (the greedy `[a-zA-Z0-9.-]+` shrinks from its maximal extent).
`domSplitAux dom (k+1)` tries index `k+1` for the `'.'`, then recurses. -/
def domSplitAux (dom : List Char) : Nat → Option (List Char × List Char)
  | 0 => none
  | k + 1 =>
    let tld := (dom.drop (k + 2)).takeWhile isAlphaChar
    if dom.getD (k + 1) ' ' = '.' ∧ 2 ≤ tld.length then
      some (dom.take (k + 1), tld)
    else domSplitAux dom k

/-- Rightmost viable split of the domain run (cf. `domSplitAux`). -/
def domSplit (dom : List Char) : Option (List Char × List Char) :=
  domSplitAux dom (dom.length - 1)

/-- Try to match the email pattern anchored at the head of `l`; on
success return the matched characters and the remainder of `l`. -/
def matchEmailHere (l : List Char) : Option (List Char × List Char) :=
  let loc := l.takeWhile isLocalChar
  if loc.isEmpty then none
  else
    match l.drop loc.length with
    | '@' :: r2 =>
      let dom := r2.takeWhile isDomChar
      match domSplit dom with
      | some (a, tld) =>
        let m := loc ++ '@' :: (a ++ '.' :: tld)
        some (m, l.drop m.length)
      | none => none
    | _ => none

/-- `re.findall` of the email pattern: scan left to right, resume after
each match.  Fuel-driven; `fuel = l.length` suffices because every step
consumes at least one character. -/
def findEmailsAux : Nat → List Char → List (List Char)
  | 0, _ => []
  | _, [] => []
  | fuel + 1, c :: rest =>
    match matchEmailHere (c :: rest) with
    | some (m, rest2) => m :: findEmailsAux fuel rest2
    | none => findEmailsAux fuel rest

/-- All raw email-shaped matches in the text. -/
def findEmails (l : List Char) : List (List Char) := findEmailsAux l.length l

/-- The operational/placeholder denylist of `extract_all_emails`. -/
def emailDenylist : List (List Char) :=
  [s2l "abuse", s2l "whois", s2l "example", s2l "hostmaster",
   s2l "noc@", s2l "admin@", s2l "postmaster", s2l "spam"]

/-- `needle` occurs as a contiguous substring of the list. -/
def containsSub (needle : List Char) : List Char → Bool
  | [] => needle.isEmpty
  | c :: rest => needle.isPrefixOf (c :: rest) || containsSub needle rest

/-- The filter step of `extract_all_emails`: keep an email iff its
lowercasing contains no denylist substring and does not start with `'@'`. -/
def emailOk (e : List Char) : Bool :=
  let el := lowerStr e
  (emailDenylist.all fun x => !containsSub x el) && !(s2l "@").isPrefixOf el

/-- `WHOISParser.extract_all_emails`: find, filter, deduplicate
(`list(set(...))` — order is not significant). -/
def extract_all_emails (text : List Char) : List (List Char) :=
  ((findEmails text).filter emailOk).dedup

/-- The privacy-proxy markers tested (on the lowercased text) by
`parse_full`. -/
def privacyMarkers : List (List Char) :=
  [s2l "identity-protection", s2l "domainsbyproxy", s2l "whoisguard"]

/-- The `privacy_protected` computation of `parse_full`. -/
def privacyProtected (text : List Char) : Bool :=
  privacyMarkers.any fun p => containsSub p (lowerStr text)

/-- The dictionary produced by `WHOISParser.parse_full`.  Optional fields
model keys that are inserted only when their value is truthy; the
always-present keys are plain fields.  `query_time` is
`datetime.utcnow().isoformat()`, passed in explicitly (`now`) since it is
the sole non-deterministic input. -/
structure ParsedRecord where
  domain : List Char
  thin_server : Option (List Char)
  registrar_server : Option (List Char)
  query_time : List Char
  raw_length : Nat
  registrar : Option (List Char)
  creation_date : Option (List Char)
  expiry_date : Option (List Char)
  updated_date : Option (List Char)
  nameservers : Option (List Char)
  status : Option (List Char)
  registrant_email : Option (List Char)
  admin_email : Option (List Char)
  tech_email : Option (List Char)
  billing_email : Option (List Char)
  all_emails : List (List Char)
  privacy_protected : Bool
deriving DecidableEq, Repr

/-- `if value:` — a standard field is stored only when the extracted
value is truthy (non-`None` and non-empty). -/
def truthyOpt : Option (List Char) → Option (List Char)
  | some v => if v.isEmpty then none else some v
  | none => none

/-- `WHOISParser.parse_full`. -/
def parse_full (domain text : List Char) (thin_server : Option (List Char))
    (now : List Char) : ParsedRecord :=
  { domain := domain
    thin_server := thin_server
    registrar_server := extract_registrar_whois text
    query_time := now
    raw_length := text.length
    registrar := truthyOpt (extract_field text
      [s2l "Registrar: ", s2l "Registrar Name: ", s2l "Sponsoring Registrar: "])
    creation_date := truthyOpt (extract_field text
      [s2l "Creation Date: ", s2l "Created Date: ", s2l "Created on: ",
       s2l "Domain Created: "])
    expiry_date := truthyOpt (extract_field text
      [s2l "Registry Expiry Date: ", s2l "Expiry Date: ", s2l "Expires: ",
       s2l "Expiration Date: "])
    updated_date := truthyOpt (extract_field text
      [s2l "Updated Date: ", s2l "Last Updated: ", s2l "Last Update: "])
    nameservers := truthyOpt (extract_field text
      [s2l "Name Server: ", s2l "Nameserver: ", s2l "nserver: "])
    status := truthyOpt (extract_field text
      [s2l "Domain Status: ", s2l "Status: "])
    registrant_email := roleEmail text [s2l "Registrant", s2l "Owner"]
    admin_email := roleEmail text [s2l "Admin", s2l "Administrative"]
    tech_email := roleEmail text [s2l "Tech", s2l "Technical"]
    billing_email := roleEmail text [s2l "Billing"]
    all_emails := extract_all_emails text
    privacy_protected := privacyProtected text }

/-- Append `key` when the optional field is present (a key of the Python
dict exists iff the stored value was truthy). -/
def optKey (v : Option (List Char)) (key : List Char) : List (List Char) :=
  match v with
  | some _ => [key]
  | none => []

/-- The key set (in insertion order) of the dictionary built by
`parse_full`. -/
def recordKeys (r : ParsedRecord) : List (List Char) :=
  [s2l "domain", s2l "thin_server", s2l "registrar_server",
   s2l "query_time", s2l "raw_length"]
  ++ optKey r.registrar (s2l "registrar")
  ++ optKey r.creation_date (s2l "creation_date")
  ++ optKey r.expiry_date (s2l "expiry_date")
  ++ optKey r.updated_date (s2l "updated_date")
  ++ optKey r.nameservers (s2l "nameservers")
  ++ optKey r.status (s2l "status")
  ++ optKey r.registrant_email (s2l "registrant_email")
  ++ optKey r.admin_email (s2l "admin_email")
  ++ optKey r.tech_email (s2l "tech_email")
  ++ optKey r.billing_email (s2l "billing_email")
  ++ [s2l "all_emails", s2l "privacy_protected"]

/-! ## UTF-8 decoding with `errors='ignore'`

`_query` decodes the accumulated bytes with
`response.decode('utf-8', errors='ignore')`: decoding never raises, and
each maximal invalid subpart is *dropped*.  The decoder below follows
CPython's UTF-8 acceptance ranges (overlong forms, surrogates and
codepoints above `0x10FFFF` are rejected; on an invalid continuation
byte the valid prefix of the sequence is consumed and skipped; at end of
input a truncated sequence is likewise skipped). -/

/-- A continuation byte `0x80..0xBF`. -/
def contByte (b : Nat) : Bool := 0x80 ≤ b && b < 0xC0

/-- Admissible first continuation for a three-byte starter `b`
(CPython rejects overlong `E0 80..9F` and surrogates `ED A0..BF`). -/
def cont3first (b b1 : Nat) : Bool :=
  if b = 0xE0 then 0xA0 ≤ b1 && b1 < 0xC0
  else if b = 0xED then 0x80 ≤ b1 && b1 < 0xA0
  else contByte b1

/-- Admissible first continuation for a four-byte starter `b`
(CPython rejects overlong `F0 80..8F` and `F4 90..` above `0x10FFFF`). -/
def cont4first (b b1 : Nat) : Bool :=
  if b = 0xF0 then 0x90 ≤ b1 && b1 < 0xC0
  else if b = 0xF4 then 0x80 ≤ b1 && b1 < 0x90
  else contByte b1

/-- One step of CPython's UTF-8 decoder: given the current byte `b` and
the remaining bytes `bs`, return the decoded character (or `none` when
the sequence starting at `b` is invalid and must be dropped) together
with the number of *additional* bytes of `bs` consumed.  On a truncated
sequence at end of input the remainder is consumed. -/
def utf8Step (b : Nat) (bs : List Nat) : Option Char × Nat :=
  if b < 0x80 then (some (Char.ofNat b), 0)
  else if b < 0xC2 then (none, 0)
  else if b < 0xE0 then
    match bs with
    | [] => (none, 0)
    | b1 :: _ =>
      if contByte b1 then (some (Char.ofNat ((b - 0xC0) * 64 + (b1 - 0x80))), 1)
      else (none, 0)
  else if b < 0xF0 then
    match bs with
    | [] => (none, 0)
    | b1 :: bs1 =>
      if cont3first b b1 then
        match bs1 with
        | [] => (none, 1)
        | b2 :: _ =>
          if contByte b2 then
            (some (Char.ofNat ((b - 0xE0) * 4096 + (b1 - 0x80) * 64 + (b2 - 0x80))), 2)
          else (none, 1)
      else (none, 0)
  else if b < 0xF5 then
    match bs with
    | [] => (none, 0)
    | b1 :: bs1 =>
      if cont4first b b1 then
        match bs1 with
        | [] => (none, 1)
        | b2 :: bs2 =>
          if contByte b2 then
            match bs2 with
            | [] => (none, 2)
            | b3 :: _ =>
              if contByte b3 then
                (some (Char.ofNat ((b - 0xF0) * 262144 + (b1 - 0x80) * 4096 +
                    (b2 - 0x80) * 64 + (b3 - 0x80))), 3)
              else (none, 2)
          else (none, 1)
      else (none, 0)
  else (none, 0)

/-- Fuel-driven decoding loop; one unit of fuel per decoding step, so
fuel equal to the number of bytes always suffices. -/
def utf8DecodeIgnoreAux : Nat → List Nat → List Char
  | 0, _ => []
  | _, [] => []
  | fuel + 1, b :: bs =>
    match utf8Step b bs with
    | (some c, k) => c :: utf8DecodeIgnoreAux fuel (bs.drop k)
    | (none, k) => utf8DecodeIgnoreAux fuel (bs.drop k)

/-- `bytes.decode('utf-8', errors='ignore')`. -/
def utf8DecodeIgnore (l : List Nat) : List Char := utf8DecodeIgnoreAux l.length l

/-- Standard UTF-8 encoding of one code point. -/
def encodeCp (n : Nat) : List Nat :=
  if n < 0x80 then [n]
  else if n < 0x800 then [0xC0 + n / 64, 0x80 + n % 64]
  else if n < 0x10000 then
    [0xE0 + n / 4096, 0x80 + n / 64 % 64, 0x80 + n % 64]
  else
    [0xF0 + n / 262144, 0x80 + n / 4096 % 64, 0x80 + n / 64 % 64, 0x80 + n % 64]

/-- UTF-8 encoding of a string (a well-formed byte response is exactly
the encoding of some character sequence). -/
def utf8Encode (cs : List Char) : List Nat :=
  (cs.map fun c => encodeCp c.toNat).flatten

/-! ## Transport and client (`client.py`, `servers.py`) -/

/-- Observable behaviour of one socket session for a given
(server, query) pair: either the peer delivers a list of `recv` chunks
and closes (EOF), or the session fails with a timeout
(`socket.timeout`), a name-resolution error (`socket.gaierror`), a
refused connection (`ConnectionRefusedError`), or some other I/O fault
carrying its `str(e)` message. -/
inductive NetResult where
  | chunks (cs : List (List Nat))
  | timeout
  | nameError
  | refused
  | fault (msg : List Char)
deriving DecidableEq, Repr

/-- The network oracle: server hostname and query string to behaviour. -/
def Network := List Char → List Char → NetResult

/-- Python exceptions that can cross the `_query`/`lookup` boundary.
The package's own exception classes live in `whois_recurse/exceptions.py`,
which is not part of the sources here; modelled from the spec: the
taxonomy `WHOISError` / `ServerNotFoundError` / `QueryTimeoutError` /
`RateLimitError` consists of ordinary `Exception` subclasses (they are
distinct from the builtin `socket.timeout` and `ConnectionRefusedError`,
so only the bare `except Exception` clause of `lookup` catches them).
`str(e)` of each carries the message it was constructed with;
`str(socket.timeout())` is `"timed out"` and a refused connection
stringifies to the errno message. -/
inductive PyExc where
  | sockTimeout
  | connRefused
  | rateLimitError (msg : List Char)
  | serverNotFoundError (msg : List Char)
  | queryTimeoutError (msg : List Char)
  | whoisError (msg : List Char)
  | otherError (msg : List Char)
deriving DecidableEq, Repr

/-- `str(e)` for the exceptions above. -/
def excStr : PyExc → List Char
  | .sockTimeout => s2l "timed out"
  | .connRefused => s2l "[Errno 111] Connection refused"
  | .rateLimitError m => m
  | .serverNotFoundError m => m
  | .queryTimeoutError m => m
  | .whoisError m => m
  | .otherError m => m

/-- `bytes.lower()`: lowercase the ASCII letters of a byte string. -/
def lowerByte (b : Nat) : Nat := if 65 ≤ b ∧ b ≤ 90 then b + 32 else b

/-- `needle` occurs as a contiguous substring of the byte string. -/
def containsSubNat (needle : List Nat) : List Nat → Bool
  | [] => needle.isEmpty
  | c :: rest => needle.isPrefixOf (c :: rest) || containsSubNat needle rest

/-- The per-chunk rate-limit test of `_query`:
`b"limited" in data.lower() or b"try again" in data.lower()`. -/
def throttleHit (chunk : List Nat) : Bool :=
  containsSubNat (s2b "limited") (chunk.map lowerByte) ||
  containsSubNat (s2b "try again") (chunk.map lowerByte)

/-- `WHOISClient._query`: send the query, accumulate chunks until EOF,
raising `RateLimitError` as soon as a chunk contains a throttling
substring, then decode leniently.  `socket.gaierror` is converted to
`ServerNotFoundError`; every other failure propagates as the builtin
exception it is. -/
def query_ (net : Network) (server domain : List Char) :
    Except PyExc (List Char) :=
  match net server domain with
  | .chunks cs =>
    if cs.any throttleHit then
      .error (.rateLimitError (s2l "Rate limited by " ++ server))
    else .ok (utf8DecodeIgnore cs.flatten)
  | .timeout => .error .sockTimeout
  | .nameError => .error (.serverNotFoundError (s2l "Unknown WHOIS server: " ++ server))
  | .refused => .error .connRefused
  | .fault m => .error (.otherError m)

/-- `servers.INITIAL_SERVERS`, in source order. -/
def INITIAL_SERVERS : List (List Char × List Char) :=
  [ (s2l "com", s2l "whois.verisign-grs.com"),
    (s2l "net", s2l "whois.verisign-grs.com"),
    (s2l "org", s2l "whois.pir.org"),
    (s2l "io", s2l "whois.nic.io"),
    (s2l "ai", s2l "whois.nic.ai"),
    (s2l "app", s2l "whois.nic.google"),
    (s2l "dev", s2l "whois.nic.google"),
    (s2l "cloud", s2l "whois.nic.cloud"),
    (s2l "co", s2l "whois.nic.co"),
    (s2l "me", s2l "whois.nic.me"),
    (s2l "tv", s2l "whois.nic.tv"),
    (s2l "in", s2l "whois.registry.in"),
    (s2l "uk", s2l "whois.nic.uk"),
    (s2l "de", s2l "whois.denic.de"),
    (s2l "eu", s2l "whois.eu"),
    (s2l "ca", s2l "whois.cira.ca"),
    (s2l "jp", s2l "whois.jprs.jp"),
    (s2l "au", s2l "whois.auda.org.au"),
    (s2l "fr", s2l "whois.nic.fr"),
    (s2l "br", s2l "whois.registro.br"),
    (s2l "edu", s2l "whois.educause.edu"),
    (s2l "gov", s2l "whois.dotgov.gov"),
    (s2l "mil", s2l "whois.nic.mil") ]

/-- Exact-match lookup in the static table (`tld in INITIAL_SERVERS`). -/
def initialServer (tld : List Char) : Option (List Char) :=
  (INITIAL_SERVERS.find? fun p => p.1 == tld).map Prod.snd

/-- `WHOISClient._extract_tld`: last label, or last two labels joined by
`'.'` when there are more than two labels and the second-to-last is
`co`/`org`/`com`. -/
def extract_tld (domain : List Char) : List Char :=
  let parts := domain.splitOn '.'
  if 2 < parts.length ∧
      (parts.getD (parts.length - 2) [] = s2l "co" ∨
       parts.getD (parts.length - 2) [] = s2l "org" ∨
       parts.getD (parts.length - 2) [] = s2l "com") then
    parts.getD (parts.length - 2) [] ++ '.' :: parts.getD (parts.length - 1) []
  else parts.getD (parts.length - 1) []

/-- The `\s*(.+)` part of the IANA fallback pattern, anchored right after
a `whois:` occurrence: greedy whitespace (newlines included), then at
least one non-newline character captured to the end of the line; on end
of input the greedy run backtracks to leave the last non-newline
whitespace character as the capture. -/
def capAfterWs (tail : List Char) : Option (List Char) :=
  let rest := tail.dropWhile isPySpace
  match rest with
  | _ :: _ => some (takeLine rest)
  | [] =>
    match ((tail.takeWhile isPySpace).reverse.dropWhile fun c => c == '\n') with
    | c :: _ => some [c]
    | [] => none

/-- `re.search(r'whois:\s*(.+)', text, re.IGNORECASE)`: earliest
position where `whois:` matches case-insensitively and the rest of the
pattern succeeds. -/
def searchIanaWhois : List Char → Option (List Char)
  | [] => none
  | c :: rest =>
    if isPrefixCI (s2l "whois:") (c :: rest) then
      match capAfterWs ((c :: rest).drop 6) with
      | some cap => some cap
      | none => searchIanaWhois rest
    else searchIanaWhois rest

/-- `WHOISClient._get_whois_server`: static table first; otherwise query
the IANA root server and scan for `whois: <server>`; on any failure or
no match fall through (bare `except: pass`) to the synthesized default
`whois.nic.<tld>`. -/
def get_whois_server (net : Network) (tld : List Char) : List Char :=
  match initialServer tld with
  | some s => s
  | none =>
    match query_ net (s2l "whois.iana.org") tld with
    | .ok iana =>
      match searchIanaWhois iana with
      | some cap => pyStrip cap
      | none => s2l "whois.nic." ++ tld
    | .error _ => s2l "whois.nic." ++ tld

/-- A dictionary returned by `lookup`/`bulk_lookup`: a parsed record, a
raw-text payload, or (in bulk mode only) an error record tagged with the
domain and `str(e)`. -/
inductive WhoisDict where
  | record (r : ParsedRecord)
  | rawText (t : List Char)
  | errRec (domain msg : List Char)
deriving DecidableEq, Repr

/-- The `try` body of `WHOISClient.lookup` (steps 1–3), for an already
normalized domain and resolved initial server. -/
def lookupBody (net : Network) (followReferrals raw : Bool) (now : List Char)
    (domain server : List Char) : Except PyExc WhoisDict :=
  match query_ net server domain with
  | .error e => .error e
  | .ok thin =>
    let thickR : Except PyExc (List Char) :=
      if followReferrals then
        match extract_registrar_whois thin with
        | some rs => if rs.isEmpty then .ok thin else query_ net rs domain
        | none => .ok thin
      else .ok thin
    match thickR with
    | .error e => .error e
    | .ok thick =>
      if raw then .ok (.rawText thick)
      else .ok (.record (parse_full domain thick (some server) now))

/-- The `except` clauses of `lookup`: `socket.timeout` becomes
`QueryTimeoutError`, `ConnectionRefusedError` becomes
`ServerNotFoundError`, and every other exception — the package's own
`RateLimitError` and `ServerNotFoundError` included — is wrapped into
the catch-all `WHOISError`. -/
def wrapExc (domain tld : List Char) : Except PyExc WhoisDict → Except PyExc WhoisDict
  | .ok r => .ok r
  | .error .sockTimeout =>
    .error (.queryTimeoutError (s2l "WHOIS query timed out for " ++ domain))
  | .error .connRefused =>
    .error (.serverNotFoundError (s2l "Cannot connect to WHOIS server for " ++ tld))
  | .error e => .error (.whoisError (s2l "WHOIS lookup failed: " ++ excStr e))

/-- `WHOISClient.lookup`. -/
def lookup (net : Network) (followReferrals raw : Bool) (now : List Char)
    (domain0 : List Char) : Except PyExc WhoisDict :=
  let domain := pyStrip (lowerStr domain0)
  let tld := extract_tld domain
  let server := get_whois_server net tld
  wrapExc domain tld (lookupBody net followReferrals raw now domain server)

/-- `WHOISClient.bulk_lookup`: one independent `lookup(domain)` per
input domain; a failure becomes an error record tagged with the original
input string.  The worker pool and its completion order are abstracted
to the input order (the result is specified only as a multiset of
outcomes, one per input). -/
def bulk_lookup (net : Network) (followReferrals : Bool) (now : List Char)
    (domains : List (List Char)) : List WhoisDict :=
  domains.map fun d =>
    match lookup net followReferrals false now d with
    | .ok v => v
    | .error e => .errRec d (excStr e)

/-! ## Helper lemmas -/

theorem dropWhile_dropWhile_self (p : Char → Bool) :
    ∀ l : List Char, (l.dropWhile p).dropWhile p = l.dropWhile p
  | [] => rfl
  | c :: l => by
    by_cases h : p c
    · simp [List.dropWhile_cons, h, dropWhile_dropWhile_self p l]
    · simp [List.dropWhile_cons, h]

theorem rstripWs_rstripWs (l : List Char) : rstripWs (rstripWs l) = rstripWs l := by
  unfold rstripWs
  rw [List.reverse_reverse, dropWhile_dropWhile_self]

theorem rstripWs_isPrefixOfSelf (l : List Char) : rstripWs l <+: l := by
  unfold rstripWs
  obtain ⟨t, ht⟩ := List.dropWhile_suffix (l := l.reverse) isPySpace
  exact ⟨t.reverse, by rw [← List.reverse_append, ht, List.reverse_reverse]⟩

theorem dropWhile_rstripWs (l : List Char)
    (h : l.dropWhile isPySpace = l) :
    (rstripWs l).dropWhile isPySpace = rstripWs l := by
  rcases hd : rstripWs l with _ | ⟨c, t⟩
  · rfl
  · have hpre : c :: t <+: l := hd ▸ rstripWs_isPrefixOfSelf l
    obtain ⟨s, hs⟩ := hpre
    have hc : isPySpace c = false := by
      by_contra hcc
      rw [Bool.not_eq_false] at hcc
      rw [← hs] at h
      simp [List.dropWhile_cons, hcc] at h
      have hlen := congrArg List.length h
      have hle := (List.dropWhile_suffix (l := t ++ s) isPySpace).length_le
      simp at hlen hle
      omega
    simp [List.dropWhile_cons, hc]

theorem pyStrip_idem (l : List Char) : pyStrip (pyStrip l) = pyStrip l := by
  unfold pyStrip
  rw [dropWhile_rstripWs _ (dropWhile_dropWhile_self _ _), rstripWs_rstripWs]

/-- Every value produced by `extract_field` is already stripped. -/
theorem extract_field_stripped (text : List Char) :
    ∀ (ps : List (List Char)) (v : List Char),
      extract_field text ps = some v → pyStrip v = v
  | [], v => by intro h; simp [extract_field] at h
  | p :: ps, v => by
    intro h
    unfold extract_field at h
    rcases hs : searchCapture p text with _ | cap
    · rw [hs] at h
      exact extract_field_stripped text ps v h
    · rw [hs] at h
      simp only [Option.some.injEq] at h
      rw [← h, pyStrip_idem]

/-- `extract_contact_email` only returns emails that pass
`_is_valid_email` (and they are already stripped). -/
theorem extract_contact_email_valid (text name e : List Char)
    (h : extract_contact_email text name = some e) : is_valid_email e = true := by
  unfold extract_contact_email at h
  rcases hf : extract_field text
      [name ++ s2l " Email: ", name ++ s2l " E-mail: ", name ++ s2l " EMAIL: "]
    with _ | email
  · simp only [hf] at h
    cases h
  · simp only [hf] at h
    by_cases hv : (!email.isEmpty && is_valid_email email) = true
    · rw [if_pos hv] at h
      have he : e = pyStrip email := by simpa using h.symm
      have hs := extract_field_stripped text _ email hf
      rw [he, hs]
      have hv2 : email.isEmpty = false ∧ is_valid_email email = true := by
        simpa using hv
      exact hv2.2
    · rw [if_neg hv] at h
      cases h

/-- The first-synonym loop only returns validated emails. -/
theorem roleEmail_valid (text : List Char) :
    ∀ (ns : List (List Char)) (e : List Char),
      roleEmail text ns = some e → is_valid_email e = true
  | [], e => by intro h; simp [roleEmail] at h
  | n :: ns, e => by
    intro h
    unfold roleEmail at h
    rcases hc : extract_contact_email text n with _ | e0
    · rw [hc] at h
      exact roleEmail_valid text ns e h
    · rw [hc] at h
      simp only [Option.some.injEq] at h
      exact h ▸ extract_contact_email_valid text n e0 hc

/-- Unpacking `_is_valid_email`: a validated email contains at least one
`'@'`, a `'.'` in the segment between the first `'@'` and any second
`'@'`, and has length at most 254. -/
theorem is_valid_email_spec (e : List Char) (h : is_valid_email e = true) :
    1 ≤ e.count '@' ∧ '.' ∈ afterFirstAt e ∧ e.length ≤ 254 := by
  unfold is_valid_email at h
  split at h
  · cases h
  · split at h
    · cases h
    · split at h
      · cases h
      · refine ⟨?_, by simpa using h, by omega⟩
        rename_i hne hlen hat
        have : e.contains '@' = true := by
          rcases hb : e.contains '@' with _ | _
          · rw [hb] at hat; simp at hat
          · rfl
        have hmem : '@' ∈ e := by simpa using this
        simpa using List.count_pos_iff.mpr hmem

/-! ## Claims -/

/-- The concrete text for the C1 counterexample: it contains the address
from the spec's own example twice, plus a privacy-proxy address. -/
def c1Text : List Char :=
  s2l "real.person@example-registrant.net privacy@whoisguard.com real.person@example-registrant.net"

/-- C1, counterexample.  The claim states that
`"real.person@example-registrant.net"` is retained by
`extract_all_emails`; in fact the email-shaped scan finds it (twice),
but the denylist filter drops it because it contains the denylist
substring `"example"`, so the returned list is empty. -/
theorem c1_counterexample :
    findEmails c1Text =
      [s2l "real.person@example-registrant.net", s2l "privacy@whoisguard.com",
       s2l "real.person@example-registrant.net"] ∧
    containsSub (s2l "example") (lowerStr (s2l "real.person@example-registrant.net")) = true ∧
    s2l "real.person@example-registrant.net" ∉ extract_all_emails c1Text ∧
    extract_all_emails c1Text = [] := by
  refine ⟨by decide, by decide, by decide, by decide⟩

/-- C1, amended: `extract_all_emails` excludes every match containing a
denylist substring (`abuse`, `whois`, `example`, `hostmaster`, `noc@`,
`admin@`, `postmaster`, `spam`) or beginning with `'@'`, retains exactly
the email-shaped matches passing that filter — ordinary registrant
addresses *not* containing a denylist substring, such as
`"ok.guy@site.net"` (the spec's own example address
`"real.person@example-registrant.net"` contains `"example"` and is
excluded) — and deduplicates the remainder: an address retained twice
appears once. -/
theorem c1_email_filtering :
    (∀ text e, e ∈ extract_all_emails text ↔ e ∈ findEmails text ∧ emailOk e = true) ∧
    (∀ text, (extract_all_emails text).Nodup) ∧
    (∀ text e, e ∈ extract_all_emails text →
      ∀ d ∈ emailDenylist, containsSub d (lowerStr e) = false) ∧
    extract_all_emails (s2l "ok.guy@site.net junk privacy@whoisguard.com ok.guy@site.net")
      = [s2l "ok.guy@site.net"] := by
  refine ⟨?_, ?_, ?_, by decide⟩
  · intro text e
    unfold extract_all_emails
    rw [List.mem_dedup, List.mem_filter]
  · intro text
    exact List.nodup_dedup _
  · intro text e he d hd
    have h2 : emailOk e = true := by
      have := List.mem_filter.mp (List.mem_dedup.mp he)
      exact this.2
    unfold emailOk at h2
    have h3 : emailDenylist.all (fun x => !containsSub x (lowerStr e)) = true := by
      simp only [Bool.and_eq_true] at h2
      exact h2.1
    have h4 := List.all_eq_true.mp h3 d hd
    simpa using h4

/-- C1, witness for the amended theorem: applied to a concrete text, it
yields that the retained address contains no `"whois"` substring. -/
theorem c1_email_filtering_witness :
    containsSub (s2l "whois") (lowerStr (s2l "ok.guy@site.net")) = false :=
  c1_email_filtering.2.2.1
    (s2l "ok.guy@site.net junk privacy@whoisguard.com ok.guy@site.net")
    (s2l "ok.guy@site.net") (by decide) (s2l "whois") (by decide)

/-- C6: first-match policy of `_extract_field`.  The formal reading of
"the text contains a label variant" is "that variant's pattern matches
somewhere in the text" (with `re.IGNORECASE`); the extractor returns the
trimmed capture of the earliest pattern in the field's list that
matches, regardless of where the lines sit in the text.  In particular
for referral extraction over text containing both `"WHOIS Server: X"`
and `"Registrar WHOIS Server: Y"` (in either line order), the
pattern-list order — `Registrar WHOIS Server:` first — makes `Y` win. -/
theorem c6_first_match_policy :
    (∀ (text : List Char) (ps : List (List Char)) (i : Nat) (v : List Char),
      i < ps.length →
      (∀ k, k < i → searchCapture (ps.getD k []) text = none) →
      searchCapture (ps.getD i []) text = some v →
      extract_field text ps = some (pyStrip v)) ∧
    extract_registrar_whois
        (s2l "WHOIS Server: serverX\nRegistrar WHOIS Server: serverY")
      = some (s2l "serverY") ∧
    extract_registrar_whois
        (s2l "Registrar WHOIS Server: serverY\nWHOIS Server: serverX")
      = some (s2l "serverY") := by
  refine ⟨?_, by decide, by decide⟩
  intro text ps
  induction ps with
  | nil => intro i v hi; simp at hi
  | cons p ps ih =>
    intro i v hi hearlier hmatch
    cases i with
    | zero =>
      rw [List.getD_cons_zero] at hmatch
      unfold extract_field
      rw [hmatch]
    | succ i =>
      have h0 : searchCapture p text = none := by
        have := hearlier 0 (Nat.succ_pos i)
        rwa [List.getD_cons_zero] at this
      unfold extract_field
      rw [h0]
      refine ih i v (by simpa using hi) ?_ (by rwa [List.getD_cons_succ] at hmatch)
      intro k hk
      have := hearlier (k + 1) (by omega)
      rwa [List.getD_cons_succ] at this

/-- C6, witness: the general part applied to a concrete text in which
the first registrar pattern does not match but the second does. -/
theorem c6_first_match_policy_witness :
    extract_field (s2l "Registrar Name: NameReg")
      [s2l "Registrar: ", s2l "Registrar Name: ", s2l "Sponsoring Registrar: "]
      = some (pyStrip (s2l "NameReg")) :=
  c6_first_match_policy.1
    (s2l "Registrar Name: NameReg")
    [s2l "Registrar: ", s2l "Registrar Name: ", s2l "Sponsoring Registrar: "]
    1 (s2l "NameReg") (by decide)
    (fun k hk => by
      interval_cases k
      decide)
    (by decide)

/-- C9: `parse_full` is deterministic modulo the timestamp.  For a fixed
(domain, text, thin_server) and any two timestamps, the two resulting
dictionaries have the same key set and agree on every key other than
`query_time` (whose value is exactly the respective timestamp): every
extracted field, role email, the all-emails set and the privacy flag are
functions of the inputs alone. -/
theorem c9_parse_full_deterministic (domain text : List Char)
    (thin_server : Option (List Char)) (n1 n2 : List Char) :
    recordKeys (parse_full domain text thin_server n1)
      = recordKeys (parse_full domain text thin_server n2) ∧
    (parse_full domain text thin_server n1).domain
      = (parse_full domain text thin_server n2).domain ∧
    (parse_full domain text thin_server n1).thin_server
      = (parse_full domain text thin_server n2).thin_server ∧
    (parse_full domain text thin_server n1).registrar_server
      = (parse_full domain text thin_server n2).registrar_server ∧
    (parse_full domain text thin_server n1).raw_length
      = (parse_full domain text thin_server n2).raw_length ∧
    (parse_full domain text thin_server n1).registrar
      = (parse_full domain text thin_server n2).registrar ∧
    (parse_full domain text thin_server n1).creation_date
      = (parse_full domain text thin_server n2).creation_date ∧
    (parse_full domain text thin_server n1).expiry_date
      = (parse_full domain text thin_server n2).expiry_date ∧
    (parse_full domain text thin_server n1).updated_date
      = (parse_full domain text thin_server n2).updated_date ∧
    (parse_full domain text thin_server n1).nameservers
      = (parse_full domain text thin_server n2).nameservers ∧
    (parse_full domain text thin_server n1).status
      = (parse_full domain text thin_server n2).status ∧
    (parse_full domain text thin_server n1).registrant_email
      = (parse_full domain text thin_server n2).registrant_email ∧
    (parse_full domain text thin_server n1).admin_email
      = (parse_full domain text thin_server n2).admin_email ∧
    (parse_full domain text thin_server n1).tech_email
      = (parse_full domain text thin_server n2).tech_email ∧
    (parse_full domain text thin_server n1).billing_email
      = (parse_full domain text thin_server n2).billing_email ∧
    (parse_full domain text thin_server n1).all_emails
      = (parse_full domain text thin_server n2).all_emails ∧
    (parse_full domain text thin_server n1).privacy_protected
      = (parse_full domain text thin_server n2).privacy_protected ∧
    (parse_full domain text thin_server n1).query_time = n1 ∧
    (parse_full domain text thin_server n2).query_time = n2 :=
  ⟨rfl, rfl, rfl, rfl, rfl, rfl, rfl, rfl, rfl, rfl, rfl, rfl, rfl, rfl,
   rfl, rfl, rfl, rfl, rfl⟩

/-- C5, counterexample.  The claim says every recorded role email
contains *exactly one* `'@'`; but `_is_valid_email` only requires some
`'@'` with a `'.'` in `email.split('@')[1]`, so the candidate
`"a@b.c@d"` — which has two `'@'`s — is recorded as the registrant
email. -/
theorem c5_counterexample :
    (parse_full (s2l "d.com") (s2l "Registrant Email: a@b.c@d\n") none
        (s2l "T")).registrant_email = some (s2l "a@b.c@d") ∧
    (s2l "a@b.c@d").count '@' = 2 :=
  ⟨by decide, by decide⟩

/-- C5, amended: each of the four roles records at most one email (a
single optional value), taken from the first synonym that yields a
validated match (within one synonym only the first pattern match is
considered); every recorded role email contains *at least* one `'@'`,
a `'.'` in the segment between the first `'@'` and any following `'@'`
(Python's `email.split('@')[1]`), and has length at most 254.  A
candidate failing this check is never recorded for the role, but a
two-`'@'` candidate satisfying it can be (cf. the counterexample). -/
theorem c5_role_email_validation :
    (∀ domain text ts now e,
      ((parse_full domain text ts now).registrant_email = some e ∨
       (parse_full domain text ts now).admin_email = some e ∨
       (parse_full domain text ts now).tech_email = some e ∨
       (parse_full domain text ts now).billing_email = some e) →
      1 ≤ e.count '@' ∧ '.' ∈ afterFirstAt e ∧ e.length ≤ 254) ∧
    (∀ text n ns e, extract_contact_email text n = some e →
      roleEmail text (n :: ns) = some e) ∧
    (∀ text n ns, extract_contact_email text n = none →
      roleEmail text (n :: ns) = roleEmail text ns) := by
  refine ⟨?_, ?_, ?_⟩
  · intro domain text ts now e h
    have hv : is_valid_email e = true := by
      rcases h with h | h | h | h <;> exact roleEmail_valid text _ e h
    exact is_valid_email_spec e hv
  · intro text n ns e h
    unfold roleEmail
    rw [h]
  · intro text n ns h
    have hu : roleEmail text (n :: ns) =
        match extract_contact_email text n with
        | some e => some e
        | none => roleEmail text ns := rfl
    rw [hu, h]

/-- C5, witness: the amended theorem applied to a text recording an
owner email for the registrant role. -/
theorem c5_role_email_validation_witness :
    1 ≤ (s2l "own@er.com").count '@' ∧
    '.' ∈ afterFirstAt (s2l "own@er.com") ∧
    (s2l "own@er.com").length ≤ 254 :=
  c5_role_email_validation.1 (s2l "d.com") (s2l "Owner Email: own@er.com\n")
    none (s2l "T") (s2l "own@er.com") (Or.inl (by decide))

/-- Thin response of the end-to-end scenario (served by the `com`
registry server). -/
def c3Thin : List Nat :=
  s2b "Domain Name: EXAMPLE.COM\r\nRegistrar WHOIS Server: whois.registrar-example.com\r\n"

/-- Thick response of the end-to-end scenario (served by the referral
target). -/
def c3Thick : List Nat :=
  s2b "Registrar: Example Registrar, Inc.\r\nRegistrant Email: owner@personal-domain.com\r\n"

/-- The network of the end-to-end scenario: the referral target serves
the thick response, every other server serves the thin response. -/
def netC3 : Network := fun server _ =>
  if server = s2l "whois.registrar-example.com" then .chunks [c3Thick]
  else .chunks [c3Thin]

/-- Project a successful parsed-record outcome. -/
def recordOf : Except PyExc WhoisDict → Option ParsedRecord
  | .ok (.record r) => some r
  | _ => none

/-- C3, counterexample.  In the end-to-end scenario the lookup succeeds
and parses the thick response, but `registrar_server` is recomputed from
the *thick* text — which contains no referral line — so it is `None`,
not `"whois.registrar-example.com"` as the claim expects. -/
theorem c3_counterexample :
    (recordOf (lookup netC3 true false (s2l "T") (s2l "example.com"))).map
        ParsedRecord.registrar_server = some none ∧
    (none : Option (List Char)) ≠ some (s2l "whois.registrar-example.com") :=
  ⟨by decide, by decide⟩

/-- C3, amended: in the end-to-end scenario the parsed output of
`lookup` has `registrar = "Example Registrar, Inc."`,
`registrant_email = "owner@personal-domain.com"` and
`privacy_protected = false`, while `registrar_server` is recomputed from
the passed-in (thick) text and is therefore absent (`None`), not the
referral that was followed; the referral used upstream appears only as
the thin flow (the thick data was fetched from
`whois.registrar-example.com`, and `thin_server` is the registry
server). -/
theorem c3_end_to_end :
    (recordOf (lookup netC3 true false (s2l "T") (s2l "example.com"))).map
        ParsedRecord.registrar = some (some (s2l "Example Registrar, Inc.")) ∧
    (recordOf (lookup netC3 true false (s2l "T") (s2l "example.com"))).map
        ParsedRecord.registrant_email
      = some (some (s2l "owner@personal-domain.com")) ∧
    (recordOf (lookup netC3 true false (s2l "T") (s2l "example.com"))).map
        ParsedRecord.privacy_protected = some false ∧
    (recordOf (lookup netC3 true false (s2l "T") (s2l "example.com"))).map
        ParsedRecord.registrar_server = some none ∧
    (recordOf (lookup netC3 true false (s2l "T") (s2l "example.com"))).map
        ParsedRecord.thin_server = some (some (s2l "whois.verisign-grs.com")) ∧
    extract_registrar_whois (utf8DecodeIgnore c3Thin)
      = some (s2l "whois.registrar-example.com") :=
  ⟨by decide, by decide, by decide, by decide, by decide, by decide⟩

/-- Any fuel at least the number of bytes gives the same decoding. -/
theorem utf8Aux_irrel : ∀ (f1 : Nat), ∀ (l : List Nat), ∀ (f2 : Nat),
    l.length ≤ f1 → l.length ≤ f2 →
    utf8DecodeIgnoreAux f1 l = utf8DecodeIgnoreAux f2 l := by
  intro f1
  induction f1 with
  | zero =>
    intro l f2 h1 _
    have hl : l = [] := List.length_eq_zero.mp (Nat.le_zero.mp h1)
    subst hl
    cases f2 <;> rfl
  | succ g ih =>
    intro l f2 h1 h2
    cases l with
    | nil => cases f2 <;> rfl
    | cons b bs =>
      cases f2 with
      | zero => simp at h2
      | succ g2 =>
        simp only [utf8DecodeIgnoreAux]
        rcases hs : utf8Step b bs with ⟨oc, k⟩
        have hd : (bs.drop k).length ≤ g ∧ (bs.drop k).length ≤ g2 := by
          have := List.length_drop k bs
          simp only [List.length_cons] at h1 h2
          omega
        cases oc with
        | none =>
          show utf8DecodeIgnoreAux g (bs.drop k) = utf8DecodeIgnoreAux g2 (bs.drop k)
          exact ih (bs.drop k) g2 hd.1 hd.2
        | some c =>
          show c :: utf8DecodeIgnoreAux g (bs.drop k)
            = c :: utf8DecodeIgnoreAux g2 (bs.drop k)
          rw [ih (bs.drop k) g2 hd.1 hd.2]

/-- Unfolding characterization of the decoder on a nonempty input. -/
theorem utf8DecodeIgnore_cons (b : Nat) (bs : List Nat) :
    utf8DecodeIgnore (b :: bs) =
      match utf8Step b bs with
      | (some c, k) => c :: utf8DecodeIgnore (bs.drop k)
      | (none, k) => utf8DecodeIgnore (bs.drop k) := by
  unfold utf8DecodeIgnore
  simp only [List.length_cons, utf8DecodeIgnoreAux]
  rcases hs : utf8Step b bs with ⟨oc, k⟩
  have hd : (bs.drop k).length ≤ bs.length := by
    have := List.length_drop k bs
    omega
  cases oc with
  | none =>
    show utf8DecodeIgnoreAux bs.length (bs.drop k)
      = utf8DecodeIgnoreAux (bs.drop k).length (bs.drop k)
    exact utf8Aux_irrel bs.length (bs.drop k) (bs.drop k).length hd le_rfl
  | some c =>
    show c :: utf8DecodeIgnoreAux bs.length (bs.drop k)
      = c :: utf8DecodeIgnoreAux (bs.drop k).length (bs.drop k)
    rw [utf8Aux_irrel bs.length (bs.drop k) (bs.drop k).length hd le_rfl]

/-- Decoding inverts encoding for one valid code point, in any context. -/
theorem decode_encodeCp (n : Nat) (hv : n.isValidChar) (rest : List Nat) :
    utf8DecodeIgnore (encodeCp n ++ rest) = Char.ofNat n :: utf8DecodeIgnore rest := by
  have hlt : n < 0x110000 := by rcases hv with h | ⟨_, h⟩ <;> omega
  by_cases h1 : n < 0x80
  · have he : encodeCp n = [n] := by unfold encodeCp; rw [if_pos h1]
    rw [he]
    show utf8DecodeIgnore (n :: rest) = _
    rw [utf8DecodeIgnore_cons]
    have hstep : utf8Step n rest = (some (Char.ofNat n), 0) := by
      unfold utf8Step; rw [if_pos h1]
    rw [hstep]; rfl
  · by_cases h2 : n < 0x800
    · have he : encodeCp n = [0xC0 + n / 64, 0x80 + n % 64] := by
        unfold encodeCp; rw [if_neg h1, if_pos h2]
      rw [he]
      show utf8DecodeIgnore ((0xC0 + n / 64) :: (0x80 + n % 64) :: rest) = _
      rw [utf8DecodeIgnore_cons]
      have hc : contByte (0x80 + n % 64) = true := by
        unfold contByte; simp; omega
      have hstep : utf8Step (0xC0 + n / 64) ((0x80 + n % 64) :: rest)
          = (some (Char.ofNat n), 1) := by
        unfold utf8Step
        rw [if_neg (by omega), if_neg (by omega), if_pos (by omega)]
        try dsimp only
        rw [if_pos hc]
        have harith : (0xC0 + n / 64 - 0xC0) * 64 + (0x80 + n % 64 - 0x80) = n := by
          omega
        rw [harith]
      rw [hstep]; rfl
    · by_cases h3 : n < 0x10000
      · have he : encodeCp n
            = [0xE0 + n / 4096, 0x80 + n / 64 % 64, 0x80 + n % 64] := by
          unfold encodeCp; rw [if_neg h1, if_neg h2, if_pos h3]
        rw [he]
        show utf8DecodeIgnore
            ((0xE0 + n / 4096) :: (0x80 + n / 64 % 64) :: (0x80 + n % 64) :: rest) = _
        rw [utf8DecodeIgnore_cons]
        have hc1 : cont3first (0xE0 + n / 4096) (0x80 + n / 64 % 64) = true := by
          unfold cont3first contByte
          by_cases hE : (0xE0 + n / 4096) = 0xE0
          · rw [if_pos hE]; simp; omega
          · rw [if_neg hE]
            by_cases hD : (0xE0 + n / 4096) = 0xED
            · rw [if_pos hD]; simp; omega
            · rw [if_neg hD]; simp; omega
        have hc2 : contByte (0x80 + n % 64) = true := by
          unfold contByte; simp; omega
        have hstep : utf8Step (0xE0 + n / 4096)
            ((0x80 + n / 64 % 64) :: (0x80 + n % 64) :: rest)
            = (some (Char.ofNat n), 2) := by
          unfold utf8Step
          rw [if_neg (by omega), if_neg (by omega), if_neg (by omega),
            if_pos (by omega)]
          try dsimp only
          rw [if_pos hc1]
          try dsimp only
          rw [if_pos hc2]
          have harith : (0xE0 + n / 4096 - 0xE0) * 4096
              + (0x80 + n / 64 % 64 - 0x80) * 64 + (0x80 + n % 64 - 0x80) = n := by
            omega
          rw [harith]
        rw [hstep]; rfl
      · have he : encodeCp n
            = [0xF0 + n / 262144, 0x80 + n / 4096 % 64,
               0x80 + n / 64 % 64, 0x80 + n % 64] := by
          unfold encodeCp; rw [if_neg h1, if_neg h2, if_neg h3]
        rw [he]
        show utf8DecodeIgnore ((0xF0 + n / 262144) :: (0x80 + n / 4096 % 64)
            :: (0x80 + n / 64 % 64) :: (0x80 + n % 64) :: rest) = _
        rw [utf8DecodeIgnore_cons]
        have hc1 : cont4first (0xF0 + n / 262144) (0x80 + n / 4096 % 64) = true := by
          unfold cont4first contByte
          by_cases hF0 : (0xF0 + n / 262144) = 0xF0
          · rw [if_pos hF0]; simp; omega
          · rw [if_neg hF0]
            by_cases hF4 : (0xF0 + n / 262144) = 0xF4
            · rw [if_pos hF4]; simp; omega
            · rw [if_neg hF4]; simp; omega
        have hc2 : contByte (0x80 + n / 64 % 64) = true := by
          unfold contByte; simp; omega
        have hc3 : contByte (0x80 + n % 64) = true := by
          unfold contByte; simp; omega
        have hstep : utf8Step (0xF0 + n / 262144)
            ((0x80 + n / 4096 % 64) :: (0x80 + n / 64 % 64) :: (0x80 + n % 64) :: rest)
            = (some (Char.ofNat n), 3) := by
          unfold utf8Step
          rw [if_neg (by omega), if_neg (by omega), if_neg (by omega),
            if_neg (by omega), if_pos (by omega)]
          try dsimp only
          rw [if_pos hc1]
          try dsimp only
          rw [if_pos hc2]
          try dsimp only
          rw [if_pos hc3]
          have harith : (0xF0 + n / 262144 - 0xF0) * 262144
              + (0x80 + n / 4096 % 64 - 0x80) * 4096
              + (0x80 + n / 64 % 64 - 0x80) * 64 + (0x80 + n % 64 - 0x80) = n := by
            omega
          rw [harith]
        rw [hstep]; rfl

/-- Repacking the code point of a character yields the character. -/
theorem char_ofNat_toNat (c : Char) : Char.ofNat c.toNat = c := by
  apply Char.eq_of_val_eq
  have h : c.toNat.isValidChar := c.valid
  simp [Char.ofNat, Char.ofNatAux, h]
  apply UInt32.eq_of_toBitVec_eq
  simp [BitVec.ofNatLt]
  rfl

/-- Lenient decoding inverts UTF-8 encoding on every string. -/
theorem utf8_decode_encode : ∀ cs : List Char, utf8DecodeIgnore (utf8Encode cs) = cs
  | [] => rfl
  | c :: cs => by
    have hv : c.toNat.isValidChar := c.valid
    show utf8DecodeIgnore (encodeCp c.toNat ++ utf8Encode cs) = c :: cs
    rw [decode_encodeCp c.toNat hv, utf8_decode_encode cs, char_ofNat_toNat]

/-- The network returning a single malformed byte `0xFF` (not valid
UTF-8 anywhere in a sequence). -/
def netC4bad : Network := fun _ _ => .chunks [[0xFF]]

/-- C4, counterexample.  The claim says invalid byte sequences are
replaced by the replacement character; the code decodes with
`errors='ignore'`, so the invalid byte `0xFF` is *dropped*: the query
returns the empty string, not `"�"`. -/
theorem c4_counterexample :
    query_ netC4bad (s2l "srv") (s2l "dom") = .ok ([] : List Char) ∧
    utf8DecodeIgnore [0xFF] = ([] : List Char) ∧
    ([] : List Char) ≠ [Char.ofNat 0xFFFD] :=
  ⟨rfl, rfl, by decide⟩

/-- C4, amended: for every byte sequence received from the peer, the
decoding step of `_query` never fails — invalid/undecodable byte
sequences are silently *dropped* (`errors='ignore'`), not replaced by
the replacement character (cf. the counterexample) — and the decoded
text of a well-formed UTF-8 response equals that response: whenever the
session delivers chunks with no throttling substring, `_query` returns
exactly the lenient decoding of the concatenated bytes, and decoding
the UTF-8 encoding of any text yields that text. -/
theorem c4_lenient_decoding :
    (∀ cs : List Char, utf8DecodeIgnore (utf8Encode cs) = cs) ∧
    (∀ (net : Network) (server domain : List Char) (bs : List (List Nat)),
      net server domain = .chunks bs → bs.any throttleHit = false →
      query_ net server domain = .ok (utf8DecodeIgnore bs.flatten)) := by
  refine ⟨utf8_decode_encode, ?_⟩
  intro net server domain bs h ht
  unfold query_
  rw [h]
  show (if bs.any throttleHit = true then
      Except.error (PyExc.rateLimitError (s2l "Rate limited by " ++ server))
    else Except.ok (utf8DecodeIgnore bs.flatten))
    = Except.ok (utf8DecodeIgnore bs.flatten)
  rw [if_neg (by rw [ht]; exact Bool.false_ne_true)]

/-- C4, witness: a query whose peer sends the UTF-8 encoding of
`"héllo"` (with a non-ASCII character) returns exactly that text. -/
theorem c4_lenient_decoding_witness :
    query_ (fun _ _ => .chunks [utf8Encode (s2l "héllo")]) (s2l "srv") (s2l "dom")
      = .ok (s2l "héllo") := by
  have h := c4_lenient_decoding.2 (fun _ _ => .chunks [utf8Encode (s2l "héllo")])
    (s2l "srv") (s2l "dom") [utf8Encode (s2l "héllo")] rfl (by decide)
  have h2 : utf8DecodeIgnore (List.flatten [utf8Encode (s2l "héllo")]) = s2l "héllo" := by
    rw [show List.flatten [utf8Encode (s2l "héllo")] = utf8Encode (s2l "héllo") from by simp]
    exact c4_lenient_decoding.1 (s2l "héllo")
  rw [h, h2]

/-- A successful non-raw `lookup` always returns a parsed record whose
`domain` field is the normalized (lowercased, stripped) input. -/
theorem lookup_ok_record (net : Network) (fr : Bool) (now d : List Char)
    (v : WhoisDict) (h : lookup net fr false now d = .ok v) :
    ∃ r, v = .record r ∧ r.domain = pyStrip (lowerStr d) := by
  simp only [lookup] at h
  rcases hb : lookupBody net fr false now (pyStrip (lowerStr d))
      (get_whois_server net (extract_tld (pyStrip (lowerStr d)))) with e | w
  · rw [hb] at h
    cases e <;> simp [wrapExc] at h
  · rw [hb] at h
    simp only [wrapExc, Except.ok.injEq] at h
    subst h
    unfold lookupBody at hb
    rcases hq : query_ net (get_whois_server net (extract_tld (pyStrip (lowerStr d))))
        (pyStrip (lowerStr d)) with e1 | thin
    · rw [hq] at hb
      simp at hb
    · rw [hq] at hb
      simp only at hb
      rcases ht : (if fr then
          match extract_registrar_whois thin with
          | some rs => if rs.isEmpty then Except.ok thin
              else query_ net rs (pyStrip (lowerStr d))
          | none => Except.ok thin
        else Except.ok thin) with e2 | thick
      · rw [ht] at hb
        simp at hb
      · rw [ht] at hb
        simp only [Bool.false_eq_true, if_false, Except.ok.injEq] at hb
        exact ⟨_, hb.symm, rfl⟩

/-- `getD` through `map` at an in-range index. -/
theorem getD_map_lt {α β : Type} (f : α → β) (l : List α) (i : Nat)
    (h : i < l.length) (d : α) (d2 : β) :
    (l.map f).getD i d2 = f (l.getD i d) := by
  rw [List.getD_eq_getElem?_getD, List.getElem?_map,
    List.getElem?_eq_getElem h, List.getD_eq_getElem?_getD,
    List.getElem?_eq_getElem h]
  rfl

/-- C7: for every list of `N` input domains and any network behaviour,
`bulk_lookup` returns exactly `N` outcomes; the outcome at each input
position is either a parsed record for that domain (tagged with its
normalized form) or an error record tagged with the original input
domain and a failure description — every per-domain failure is converted
to an error outcome, and the function is total: no exception escapes. -/
theorem c7_bulk_cardinality :
    (∀ (net : Network) (fr : Bool) (now : List Char) (ds : List (List Char)),
      (bulk_lookup net fr now ds).length = ds.length) ∧
    (∀ (net : Network) (fr : Bool) (now : List Char) (ds : List (List Char))
        (i : Nat), i < ds.length →
      (∃ r : ParsedRecord,
        (bulk_lookup net fr now ds).getD i (.errRec [] []) = .record r ∧
        r.domain = pyStrip (lowerStr (ds.getD i []))) ∨
      (∃ msg, (bulk_lookup net fr now ds).getD i (.errRec [] [])
          = .errRec (ds.getD i []) msg)) := by
  constructor
  · intro net fr now ds
    unfold bulk_lookup
    exact List.length_map ds _
  · intro net fr now ds i hi
    unfold bulk_lookup
    rw [getD_map_lt _ ds i hi []]
    rcases hl : lookup net fr false now (ds.getD i []) with e | v
    · right
      exact ⟨excStr e, rfl⟩
    · left
      obtain ⟨r, hr, hd⟩ := lookup_ok_record net fr now (ds.getD i []) v hl
      exact ⟨r, hr, hd⟩

/-- C7, witness: a two-domain bulk call against a network that serves
`b.net` and times out for every other server, yielding one success and
one error outcome. -/
def netC7 : Network := fun _ q =>
  if q = s2l "b.net" then .chunks [s2b "Domain Name: b.net\r\n"] else .timeout

/-- C7, witness: the theorem applied at a concrete two-domain bulk call
with one failure and one success. -/
theorem c7_bulk_cardinality_witness :
    (bulk_lookup netC7 true (s2l "T") [s2l "A.com", s2l "b.net"]).length = 2 ∧
    ((∃ r : ParsedRecord,
        (bulk_lookup netC7 true (s2l "T") [s2l "A.com", s2l "b.net"]).getD 0
          (.errRec [] []) = .record r ∧
        r.domain = pyStrip (lowerStr (s2l "A.com"))) ∨
      (∃ msg, (bulk_lookup netC7 true (s2l "T") [s2l "A.com", s2l "b.net"]).getD 0
          (.errRec [] []) = .errRec (s2l "A.com") msg)) ∧
    ((∃ r : ParsedRecord,
        (bulk_lookup netC7 true (s2l "T") [s2l "A.com", s2l "b.net"]).getD 1
          (.errRec [] []) = .record r ∧
        r.domain = pyStrip (lowerStr (s2l "b.net"))) ∨
      (∃ msg, (bulk_lookup netC7 true (s2l "T") [s2l "A.com", s2l "b.net"]).getD 1
          (.errRec [] []) = .errRec (s2l "b.net") msg)) :=
  ⟨c7_bulk_cardinality.1 netC7 true (s2l "T") [s2l "A.com", s2l "b.net"],
   c7_bulk_cardinality.2 netC7 true (s2l "T") [s2l "A.com", s2l "b.net"] 0 (by decide),
   c7_bulk_cardinality.2 netC7 true (s2l "T") [s2l "A.com", s2l "b.net"] 1 (by decide)⟩

/-- C10: `lookup` lowercases and strips its domain argument before any
processing, so the `domain` field of every successful outcome is the
normalized form of the input; an error outcome produced by
`bulk_lookup`, by contrast, is tagged with the caller's original,
unnormalized input string. -/
theorem c10_domain_normalization :
    (∀ (net : Network) (fr : Bool) (now d : List Char) (r : ParsedRecord),
      lookup net fr false now d = .ok (.record r) →
      r.domain = pyStrip (lowerStr d)) ∧
    (∀ (net : Network) (fr : Bool) (now : List Char) (ds : List (List Char))
        (d : List Char) (e : PyExc), d ∈ ds →
      lookup net fr false now d = .error e →
      WhoisDict.errRec d (excStr e) ∈ bulk_lookup net fr now ds) := by
  constructor
  · intro net fr now d r h
    obtain ⟨r2, hr2, hd⟩ := lookup_ok_record net fr now d (.record r) h
    cases hr2
    exact hd
  · intro net fr now ds d e hd hl
    unfold bulk_lookup
    refine List.mem_map.mpr ⟨d, hd, ?_⟩
    rw [hl]

/-- C10, witness network: every query succeeds with a minimal reply. -/
def netC10 : Network := fun _ _ => .chunks [s2b "Domain Name: X\r\n"]

/-- The record returned for the unnormalized input `"  EXAMPLE.COM "`. -/
def c10Rec : ParsedRecord :=
  (recordOf (lookup netC10 true false (s2l "T") (s2l "  EXAMPLE.COM ")))
    |>.getD (parse_full [] [] none [])

/-- C10, witness: the successful outcome's domain is the normalized form
`"example.com"`, which differs from the original input, while the bulk
error outcome of a failing network is tagged with the original
`"  EXAMPLE.COM "`. -/
theorem c10_domain_normalization_witness :
    c10Rec.domain = pyStrip (lowerStr (s2l "  EXAMPLE.COM ")) ∧
    pyStrip (lowerStr (s2l "  EXAMPLE.COM ")) = s2l "example.com" ∧
    s2l "  EXAMPLE.COM " ≠ s2l "example.com" ∧
    WhoisDict.errRec (s2l "  EXAMPLE.COM ")
        (excStr (.queryTimeoutError (s2l "WHOIS query timed out for example.com")))
      ∈ bulk_lookup (fun _ _ => .timeout) true (s2l "T") [s2l "  EXAMPLE.COM "] :=
  ⟨c10_domain_normalization.1 netC10 true (s2l "T") (s2l "  EXAMPLE.COM ") c10Rec rfl,
   by decide, by decide,
   c10_domain_normalization.2 (fun _ _ => .timeout) true (s2l "T")
     [s2l "  EXAMPLE.COM "] (s2l "  EXAMPLE.COM ")
     (.queryTimeoutError (s2l "WHOIS query timed out for example.com"))
     (by decide) rfl⟩

/-- C8: zone resolution lookup order.  (1) A zone present in the static
table resolves to the table entry, and the result is independent of the
network oracle — no network call can influence it; (2) an absent zone is
resolved by querying the root coordination server (`whois.iana.org`)
with the zone and scanning the reply with the case-insensitive
`whois:\s*(.+)` pattern, returning the stripped capture; (3) if that
query fails in *any* way, or the scan finds nothing, resolution falls
through silently — `_get_whois_server` is a total function, no exception
passes this layer — and returns the synthesized default
`whois.nic.<zone>` (the concrete spelling of the spec's
`query-server.nic.<zone>`) without validation. -/
theorem c8_zone_resolution :
    (∀ (net net2 : Network) (tld s : List Char), initialServer tld = some s →
      get_whois_server net tld = s ∧
      get_whois_server net tld = get_whois_server net2 tld) ∧
    (∀ (net : Network) (tld text cap : List Char), initialServer tld = none →
      query_ net (s2l "whois.iana.org") tld = .ok text →
      searchIanaWhois text = some cap →
      get_whois_server net tld = pyStrip cap) ∧
    (∀ (net : Network) (tld text : List Char), initialServer tld = none →
      query_ net (s2l "whois.iana.org") tld = .ok text →
      searchIanaWhois text = none →
      get_whois_server net tld = s2l "whois.nic." ++ tld) ∧
    (∀ (net : Network) (tld : List Char) (e : PyExc), initialServer tld = none →
      query_ net (s2l "whois.iana.org") tld = .error e →
      get_whois_server net tld = s2l "whois.nic." ++ tld) := by
  refine ⟨?_, ?_, ?_, ?_⟩
  · intro net net2 tld s h
    constructor
    · unfold get_whois_server
      rw [h]
    · unfold get_whois_server
      rw [h]
  · intro net tld text cap h hq hs
    unfold get_whois_server
    rw [h, hq]
    show (match searchIanaWhois text with
      | some cap => pyStrip cap
      | none => s2l "whois.nic." ++ tld) = pyStrip cap
    rw [hs]
  · intro net tld text h hq hs
    unfold get_whois_server
    rw [h, hq]
    show (match searchIanaWhois text with
      | some cap => pyStrip cap
      | none => s2l "whois.nic." ++ tld) = s2l "whois.nic." ++ tld
    rw [hs]
  · intro net tld e h hq
    unfold get_whois_server
    rw [h, hq]

/-- C8, witness: the theorem applied to (a) `com` against two different
networks (one of which always fails), (b) an absent zone `zz` resolved
through a root reply, (c) an absent zone whose root reply contains no
`whois:` line, and (d) an absent zone whose root query times out. -/
theorem c8_zone_resolution_witness :
    get_whois_server (fun _ _ => .timeout) (s2l "com") = s2l "whois.verisign-grs.com" ∧
    get_whois_server (fun _ _ => .timeout) (s2l "com")
      = get_whois_server netC10 (s2l "com") ∧
    get_whois_server (fun _ _ => .chunks [s2b "refer: x\nwhois:  whois.nic.zz \nend"])
        (s2l "zz") = pyStrip (s2l "whois.nic.zz ") ∧
    get_whois_server (fun _ _ => .chunks [s2b "no server line here"]) (s2l "zz")
      = s2l "whois.nic." ++ s2l "zz" ∧
    get_whois_server (fun _ _ => .timeout) (s2l "zz")
      = s2l "whois.nic." ++ s2l "zz" :=
  ⟨(c8_zone_resolution.1 (fun _ _ => .timeout) netC10 (s2l "com")
      (s2l "whois.verisign-grs.com") (by decide)).1,
   (c8_zone_resolution.1 (fun _ _ => .timeout) netC10 (s2l "com")
      (s2l "whois.verisign-grs.com") (by decide)).2,
   c8_zone_resolution.2.1 (fun _ _ => .chunks [s2b "refer: x\nwhois:  whois.nic.zz \nend"])
      (s2l "zz") (utf8DecodeIgnore (s2b "refer: x\nwhois:  whois.nic.zz \nend"))
      (s2l "whois.nic.zz ") (by decide) rfl (by decide),
   c8_zone_resolution.2.2.1 (fun _ _ => .chunks [s2b "no server line here"])
      (s2l "zz") (utf8DecodeIgnore (s2b "no server line here")) (by decide) rfl (by decide),
   c8_zone_resolution.2.2.2 (fun _ _ => .timeout) (s2l "zz") .sockTimeout
      (by decide) rfl⟩

/-- A network that always rate-limits mid-response. -/
def netC2rate : Network := fun _ _ => .chunks [s2b "Service limited, slow down"]

/-- A network on which every hostname is unresolvable. -/
def netC2gai : Network := fun _ _ => .nameError

/-- C2, counterexample.  The claim says a throttled query makes `lookup`
raise `RateLimitError` and an unresolvable hostname makes it raise
`ServerNotFoundError`; in fact `_query` raises those, but `lookup`'s
catch-all `except Exception` clause re-wraps both into the generic
`WHOISError`, so neither ever surfaces from `lookup`. -/
theorem c2_counterexample :
    lookup netC2rate true false (s2l "T") (s2l "x.com")
      = .error (.whoisError
          (s2l "WHOIS lookup failed: Rate limited by whois.verisign-grs.com")) ∧
    lookup netC2rate true false (s2l "T") (s2l "x.com")
      ≠ .error (.rateLimitError (s2l "Rate limited by whois.verisign-grs.com")) ∧
    lookup netC2gai true false (s2l "T") (s2l "x.com")
      = .error (.whoisError
          (s2l "WHOIS lookup failed: Unknown WHOIS server: whois.verisign-grs.com")) ∧
    lookup netC2gai true false (s2l "T") (s2l "x.com")
      ≠ .error (.serverNotFoundError
          (s2l "Unknown WHOIS server: whois.verisign-grs.com")) := by
  have h1 : lookup netC2rate true false (s2l "T") (s2l "x.com")
      = .error (.whoisError
          (s2l "WHOIS lookup failed: Rate limited by whois.verisign-grs.com")) := rfl
  have h2 : lookup netC2gai true false (s2l "T") (s2l "x.com")
      = .error (.whoisError
          (s2l "WHOIS lookup failed: Unknown WHOIS server: whois.verisign-grs.com")) := rfl
  refine ⟨h1, ?_, h2, ?_⟩
  · rw [h1]; simp
  · rw [h2]; simp

/-- C2, amended: at the `lookup` boundary the error taxonomy is: a
query exceeding the timeout bound raises `QueryTimeoutError`; an
actively refused connection raises `ServerNotFoundError`; but a
throttling substring observed mid-response and an unresolvable server
hostname are wrapped by the catch-all clause — `lookup` raises the
generic `WHOISError` whose message embeds the rate-limit /
server-not-found description — and any other transport fault likewise
raises the catch-all wrapping failure. -/
theorem c2_error_taxonomy :
    (∀ (net : Network) (fr : Bool) (now d : List Char),
      net (get_whois_server net (extract_tld (pyStrip (lowerStr d))))
          (pyStrip (lowerStr d)) = .timeout →
      lookup net fr false now d = .error (.queryTimeoutError
        (s2l "WHOIS query timed out for " ++ pyStrip (lowerStr d)))) ∧
    (∀ (net : Network) (fr : Bool) (now d : List Char),
      net (get_whois_server net (extract_tld (pyStrip (lowerStr d))))
          (pyStrip (lowerStr d)) = .refused →
      lookup net fr false now d = .error (.serverNotFoundError
        (s2l "Cannot connect to WHOIS server for "
          ++ extract_tld (pyStrip (lowerStr d))))) ∧
    (∀ (net : Network) (fr : Bool) (now d : List Char) (cs : List (List Nat)),
      net (get_whois_server net (extract_tld (pyStrip (lowerStr d))))
          (pyStrip (lowerStr d)) = .chunks cs →
      cs.any throttleHit = true →
      lookup net fr false now d = .error (.whoisError
        (s2l "WHOIS lookup failed: Rate limited by "
          ++ get_whois_server net (extract_tld (pyStrip (lowerStr d)))))) ∧
    (∀ (net : Network) (fr : Bool) (now d : List Char),
      net (get_whois_server net (extract_tld (pyStrip (lowerStr d))))
          (pyStrip (lowerStr d)) = .nameError →
      lookup net fr false now d = .error (.whoisError
        (s2l "WHOIS lookup failed: Unknown WHOIS server: "
          ++ get_whois_server net (extract_tld (pyStrip (lowerStr d)))))) ∧
    (∀ (net : Network) (fr : Bool) (now d m : List Char),
      net (get_whois_server net (extract_tld (pyStrip (lowerStr d))))
          (pyStrip (lowerStr d)) = .fault m →
      lookup net fr false now d = .error (.whoisError
        (s2l "WHOIS lookup failed: " ++ m))) := by
  refine ⟨?_, ?_, ?_, ?_, ?_⟩
  · intro net fr now d h
    simp only [lookup]
    unfold lookupBody query_
    rw [h]
    rfl
  · intro net fr now d h
    simp only [lookup]
    unfold lookupBody query_
    rw [h]
    rfl
  · intro net fr now d cs h ht
    simp only [lookup]
    unfold lookupBody query_
    rw [h]
    dsimp only
    rw [if_pos ht]
    rfl
  · intro net fr now d h
    simp only [lookup]
    unfold lookupBody query_
    rw [h]
    rfl
  · intro net fr now d m h
    simp only [lookup]
    unfold lookupBody query_
    rw [h]
    rfl

/-- C2, witness: the amended taxonomy applied at `x.com` to five
concrete networks, one per failure class. -/
theorem c2_error_taxonomy_witness :
    lookup (fun _ _ => .timeout) true false (s2l "T") (s2l "x.com")
      = .error (.queryTimeoutError (s2l "WHOIS query timed out for x.com")) ∧
    lookup (fun _ _ => .refused) true false (s2l "T") (s2l "x.com")
      = .error (.serverNotFoundError (s2l "Cannot connect to WHOIS server for com")) ∧
    lookup netC2rate true false (s2l "T") (s2l "y.com")
      = .error (.whoisError
          (s2l "WHOIS lookup failed: Rate limited by whois.verisign-grs.com")) ∧
    lookup netC2gai true false (s2l "T") (s2l "y.com")
      = .error (.whoisError
          (s2l "WHOIS lookup failed: Unknown WHOIS server: whois.verisign-grs.com")) ∧
    lookup (fun _ _ => .fault (s2l "boom")) true false (s2l "T") (s2l "x.com")
      = .error (.whoisError (s2l "WHOIS lookup failed: boom")) :=
  ⟨c2_error_taxonomy.1 (fun _ _ => .timeout) true (s2l "T") (s2l "x.com") rfl,
   c2_error_taxonomy.2.1 (fun _ _ => .refused) true (s2l "T") (s2l "x.com") rfl,
   c2_error_taxonomy.2.2.1 netC2rate true (s2l "T") (s2l "y.com")
     [s2b "Service limited, slow down"] rfl (by decide),
   c2_error_taxonomy.2.2.2.1 netC2gai true (s2l "T") (s2l "y.com") rfl,
   c2_error_taxonomy.2.2.2.2 (fun _ _ => .fault (s2l "boom")) true (s2l "T")
     (s2l "x.com") (s2l "boom") rfl⟩
